import Mathlib

/-!
Shallow embedding of the multi-asset trading-book risk engine.

Numeric values are modelled as `ℚ` (the Python code uses IEEE doubles; the
claims under study are about control flow, sentinels and exact algebraic
cancellations, none of which depend on rounding).  Missing values (`NaN` in
a pandas series) are modelled as `Option ℚ` entries; a pandas `Series` is a
positionally indexed `List (Option ℚ)`.  Library calls that the repository
takes from numpy/scipy (`np.log`, `scipy.stats.chi2.cdf`) are external to the
repository and are modelled as explicit function parameters.
-/

namespace RiskBook

/-- The `1e-12` tolerance used throughout the source. -/
def eps12 : ℚ := 1 / 10 ^ 12

/-- Python whitespace test used by `str.strip()`. -/
def isPyWs (c : Char) : Bool :=
  c == ' ' || c == '\t' || c == '\n' || c == '\r'

/-- Model of Python `str.strip()`: remove leading and trailing whitespace. -/
def pyStrip (s : String) : String :=
  ⟨((s.data.dropWhile isPyWs).reverse.dropWhile isPyWs).reverse⟩

/-- Model of Python `str.upper()` (ASCII letters, as used for asset classes). -/
def pyUpper (s : String) : String :=
  ⟨s.data.map Char.toUpper⟩

/-- Insert into an ascending-sorted list (helper for `sortAsc`). -/
def insertSorted (a : ℚ) : List ℚ → List ℚ
  | [] => [a]
  | b :: bs => if a ≤ b then a :: b :: bs else b :: insertSorted a bs

/-- Ascending sort, modelling the sort performed inside `np.quantile` /
`sorted(...)`.  (For a total order on values, any correct sort yields the same
sorted value sequence, so insertion sort is a faithful model.) -/
def sortAsc (l : List ℚ) : List ℚ := l.foldr insertSorted []

/-- Model of `np.quantile(xs, q)` with the default linear interpolation
between order statistics: with `s` the ascending sort of `xs`, virtual index
`h = (n-1)·q`, the result is `s[⌊h⌋] + (h-⌊h⌋)·(s[⌊h⌋+1] - s[⌊h⌋])`.
On numpy's accepted domain (`0 ≤ q ≤ 1`, nonempty sample) `h ≥ 0`, so the
natural-number floor below is the floor numpy computes. -/
def npQuantile (xs : List ℚ) (q : ℚ) : ℚ :=
  let s := sortAsc xs
  let n := s.length
  let h : ℚ := ((n : ℚ) - 1) * q
  let i : ℕ := ⌊h⌋₊
  let lo := s.getD i 0
  let hi := s.getD (i + 1) lo
  lo + (h - (i : ℚ)) * (hi - lo)

/-- Model of `pandas.Series.dropna().values`: keep the non-missing entries,
in order. -/
def dropna : List (Option ℚ) → List ℚ
  | [] => []
  | none :: r => dropna r
  | some a :: r => a :: dropna r

/-- `src/portfolio/book.py` — dataclass `Position`. -/
structure Position where
  name : String
  asset_class : String      -- "EQ" | "FX" | "INDEX" | "RATES"
  ric : String              -- factor identifier
  notional_usd : ℚ := 0
  multiplier : ℚ := 1
  dv01_usd_per_bp : ℚ := 0
  enabled : Bool := true
deriving DecidableEq, Repr

/-- `Position.exposure_usd`:
`dv01_usd_per_bp` for RATES, else `notional_usd * multiplier`. -/
def Position.exposure_usd (p : Position) : ℚ :=
  if p.asset_class = "RATES" then p.dv01_usd_per_bp
  else p.notional_usd * p.multiplier

/-- `src/portfolio/book.py` — class `TradingBook`. -/
structure TradingBook where
  positions : List Position
deriving DecidableEq, Repr

/-- `TradingBook.enabled_positions`. -/
def TradingBook.enabled_positions (b : TradingBook) : List Position :=
  b.positions.filter (·.enabled)

/-- `TradingBook.exposure_by_factor`, read at one key.  The source builds a
dict by `out[p.ric] = out.get(p.ric, 0.0) + p.exposure_usd()` over the enabled
positions; looking that dict up at `ric` (with default `0.0`, as every caller
does via `.get(ric, 0.0)`) yields exactly the accumulated sum over the enabled
positions whose `ric` matches. -/
def TradingBook.exposure_by_factor (b : TradingBook) (ric : String) : ℚ :=
  (b.enabled_positions.filter (fun p => p.ric == ric)).foldl
    (fun a p => a + p.exposure_usd) 0

/-- A pandas `DataFrame` of factor columns: association list from column name
(RIC) to the column's values (positionally indexed, `none` = NaN). -/
abbrev FactorDF := List (String × List (Option ℚ))

/-- `ric in factor_df.columns`. -/
def hasCol (f : FactorDF) (r : String) : Bool := f.any (fun c => c.1 == r)

/-- `factor_df[ric]`. -/
def colLookup (f : FactorDF) (r : String) : List (Option ℚ) :=
  ((f.find? (fun c => c.1 == r)).map Prod.snd).getD []

/-- Python dict assignment `d[k] = v`: overwrite in place if the key exists
(keeping its insertion position), else append. -/
def dictSet (acc : FactorDF) (k : String) (v : List (Option ℚ)) : FactorDF :=
  if acc.any (fun c => c.1 == k) then
    acc.map (fun c => if c.1 == k then (k, v) else c)
  else acc ++ [(k, v)]

/-- `TradingBook.pnl_matrix`: one column per enabled position whose `ric` is a
column of `factor_df` (`pnl_cols[p.name] = factor_df[p.ric] * p.exposure_usd()`,
positions with an absent `ric` are skipped by `continue`). -/
def TradingBook.pnl_matrix (b : TradingBook) (f : FactorDF) : FactorDF :=
  b.enabled_positions.foldl
    (fun acc p =>
      if hasCol f p.ric then
        dictSet acc p.name
          ((colLookup f p.ric).map (fun ov => ov.map (fun x => x * p.exposure_usd)))
      else acc)
    []

/-- `TradingBook.historical_var` (static method): drop missing values; below
30 observations return NaN (modelled `none`); else `-np.quantile(x, 1-alpha)`. -/
def TradingBook.historical_var (pnl : List (Option ℚ)) (alpha : ℚ) : Option ℚ :=
  let x := dropna pnl
  if x.length < 30 then none
  else some (-(npQuantile x (1 - alpha)))

/-- `historical_es` from `pages/3_VaR.py`: same 30-observation guard and the
same quantile `q`; average of the sample values `≤ q`, negated; NaN (`none`)
when the tail is empty. -/
def historical_es (pnl : List (Option ℚ)) (alpha : ℚ) : Option ℚ :=
  let x := dropna pnl
  if x.length < 30 then none
  else
    let q := npQuantile x (1 - alpha)
    let tail := x.filter (fun v => decide (v ≤ q))
    if tail.length = 0 then none
    else some (-(tail.sum / (tail.length : ℚ)))

/-- A concrete 30-observation PnL sample (values 0..29), used to witness the
risk-metric claims. -/
def pnl30 : List (Option ℚ) :=
  [some 0, some 1, some 2, some 3, some 4, some 5, some 6, some 7, some 8,
   some 9, some 10, some 11, some 12, some 13, some 14, some 15, some 16,
   some 17, some 18, some 19, some 20, some 21, some 22, some 23, some 24,
   some 25, some 26, some 27, some 28, some 29]

namespace RiskVar

/-- `src/risk/var.py` — `historical_var`: raises `ValueError` on an empty
series (modelled `Except.error`); otherwise sorts the negated PnL values and
returns the entry at index `int((n-1)*confidence)` (Python `int()` truncation,
which for the nonnegative values arising from `confidence ≥ 0` is the
natural-number floor).  There is no minimum-sample-size guard here. -/
def historical_var (pnl_series : List ℚ) (confidence : ℚ) : Except String ℚ :=
  if pnl_series.isEmpty then .error "pnl_series is empty"
  else
    let losses := sortAsc (pnl_series.map (fun x => -x))
    let n := losses.length
    let idx := ⌊((n : ℚ) - 1) * confidence⌋₊
    .ok (losses.getD idx 0)

end RiskVar

/-! ### Hedging engine (`src/hedging/engine.py`) -/

/-- `src/hedging/engine.py` — dataclass `HedgeRule`. -/
structure HedgeRule where
  target_factor_ric : String
  hedge_factor_ric : String
  hedge_name : String := "HEDGE"
  hedge_asset_class : String := "INDEX"
  hedge_multiplier : ℚ := 1
  max_abs_notional : Option ℚ := none
  enabled : Bool := true
  proxy_beta : Bool := false
deriving DecidableEq, Repr

/-- `_clamp(x, max_abs)`: identity when no cap or a non-positive cap is
supplied, else `np.clip(x, -m, m) = min (max x (-m)) m`. -/
def _clamp (x : ℚ) (max_abs : Option ℚ) : ℚ :=
  match max_abs with
  | none => x
  | some m => if m ≤ 0 then x else min (max x (-m)) m

/-- `pd.concat([y, x], axis=1).dropna()` for two columns of the same frame:
positionally zip and keep rows where both are present. -/
def alignPairs (y x : List (Option ℚ)) : List (ℚ × ℚ) :=
  (y.zip x).filterMap (fun p =>
    match p with
    | (some a, some b) => some (a, b)
    | _ => none)

/-- `_beta(y, x) = Cov(y,x)/Var(x)` (population moments, `ddof=0`) on the
aligned rows; `0` below 30 aligned observations or when `Var(x) ≤ 0`. -/
def _beta (y x : List (Option ℚ)) : ℚ :=
  let d := alignPairs y x
  if d.length < 30 then 0
  else
    let n : ℚ := (d.length : ℚ)
    let ys := d.map Prod.fst
    let xs := d.map Prod.snd
    let my := ys.sum / n
    let mx := xs.sum / n
    let vx := (xs.map (fun a => (a - mx) ^ 2)).sum / n
    if vx ≤ 0 then 0
    else ((d.map (fun p => (p.1 - my) * (p.2 - mx))).sum / n) / vx

/-- The SPX-equivalent exposure loop of `build_hedges` (`proxy_beta` path):
sum `exposure_usd * beta` over enabled EQ/INDEX positions whose factor column
is present, with `beta = 1` for the `.SPX` position itself. -/
def spxEquiv (book : TradingBook) (fdf : FactorDF) : ℚ :=
  book.enabled_positions.foldl
    (fun s p =>
      if (p.asset_class = "EQ" ∨ p.asset_class = "INDEX") ∧ hasCol fdf p.ric then
        s + p.exposure_usd *
          (if p.ric = ".SPX" then 1 else _beta (colLookup fdf p.ric) (colLookup fdf ".SPX"))
      else s)
    0

/-- `build_hedges(book, rules, factors_df)`: iterate the rules in order,
skipping disabled and malformed rules; compute the current exposure (beta
proxy only for target `.SPX` with the column available, else the plain net
exposure); skip exposures below `1e-12` in magnitude; emit a RATES hedge as
`dv01 = -exposure` or a returns-based hedge as
`notional = _clamp(-exposure/mult, cap)` with a zero multiplier treated as 1. -/
def build_hedges (book : TradingBook) (rules : List HedgeRule)
    (factors_df : Option FactorDF) : List Position :=
  rules.foldl
    (fun hedges r =>
      if !r.enabled then hedges
      else
        let target := pyStrip r.target_factor_ric
        let hedge_ric := pyStrip r.hedge_factor_ric
        let asset_class := pyStrip (pyUpper r.hedge_asset_class)
        if target = "" ∨ hedge_ric = "" ∨
            ¬ (asset_class = "EQ" ∨ asset_class = "FX" ∨
               asset_class = "INDEX" ∨ asset_class = "RATES") then hedges
        else
          let current_exp : ℚ :=
            match factors_df with
            | some fdf =>
              if r.proxy_beta ∧ target = ".SPX" ∧ hasCol fdf ".SPX" then
                spxEquiv book fdf
              else book.exposure_by_factor target
            | none => book.exposure_by_factor target
          if |current_exp| < eps12 then hedges
          else if asset_class = "RATES" then
            hedges ++ [{ name := r.hedge_name, asset_class := "RATES",
                         ric := hedge_ric, notional_usd := 0, multiplier := 1,
                         dv01_usd_per_bp := -current_exp, enabled := true }]
          else
            let mult := if r.hedge_multiplier ≠ 0 then r.hedge_multiplier else 1
            let notional := _clamp (-current_exp / mult) r.max_abs_notional
            hedges ++ [{ name := r.hedge_name, asset_class := asset_class,
                         ric := hedge_ric, notional_usd := notional,
                         multiplier := mult, dv01_usd_per_bp := 0,
                         enabled := true }])
    []

/-- Append freshly built hedge positions to a book (the "add the hedges to the
book" step of the spec's zero-exposure property). -/
def TradingBook.addPositions (b : TradingBook) (l : List Position) : TradingBook :=
  ⟨b.positions ++ l⟩

/-! ### Backtesting (`pages/4_backtesting.py`) -/

/-- `series.dropna()` keeping the original positional labels: the entries
`(t, v)` of the de-na'd series, `t` being the position in the original series
(the accumulator `k` is the label of the head). -/
def denaFrom (k : ℕ) : List (Option ℚ) → List (ℕ × ℚ)
  | [] => []
  | none :: rest => denaFrom (k + 1) rest
  | some a :: rest => (k, a) :: denaFrom (k + 1) rest

/-- Number of non-missing entries of a series. -/
def somesCount : List (Option ℚ) → ℕ
  | [] => 0
  | none :: r => somesCount r
  | some _ :: r => somesCount r + 1

/-- `.reindex` label lookup: the position of the first entry of `x` whose
label equals `t`. -/
def reindexPos : List (ℕ × ℚ) → ℕ → Option ℕ
  | [], _ => none
  | e :: rest, t => if e.1 = t then some 0 else (reindexPos rest t).map (· + 1)

/-- `rolling_var_es(pnl, window, alpha)`: on the de-na'd series `x`, an
all-missing frame when `len(x) < window + 5`; otherwise for each original
label `t`, look `t` up in `x` (the `.reindex(pnl.index)`); a hit at position
`i ≥ window` gets `VaR = -np.quantile(x[i-window:i], 1-alpha)` and
`ES = -mean{v ∈ sample | v ≤ q}` (missing when that tail is empty); every
other label is missing. -/
def rolling_var_es (pnl : List (Option ℚ)) (window : ℕ) (alpha : ℚ) :
    List (Option ℚ × Option ℚ) :=
  let x := denaFrom 0 pnl
  if x.length < window + 5 then List.replicate pnl.length (none, none)
  else
    let vals := x.map Prod.snd
    (List.range pnl.length).map (fun t =>
      match reindexPos x t with
      | none => (none, none)
      | some i =>
        if i < window then (none, none)
        else
          let sample := (vals.drop (i - window)).take window
          let q := npQuantile sample (1 - alpha)
          let tail := sample.filter (fun v => decide (v ≤ q))
          (some (-q),
           if tail.length = 0 then none
           else some (-(tail.sum / (tail.length : ℚ)))))

/-- The non-missing values strictly before position `t` (used to state what
the rolling window at `t` is made of). -/
def priorVals (pnl : List (Option ℚ)) (t : ℕ) : List ℚ :=
  (denaFrom 0 (pnl.take t)).map Prod.snd

/-- Return record of `kupiec_test`. -/
structure KupiecResult where
  lr_uc : Option ℚ
  p_value : Option ℚ
  breaches : ℕ
  n : ℕ
deriving DecidableEq, Repr

/-- `kupiec_test(exceed, alpha)`.  `np.log` and `scipy.stats.chi2.cdf(., df=1)`
are external library functions, taken as parameters `log` and `chi2cdf`;
`NaN` statistics are modelled as `none`. -/
def kupiec_test (log chi2cdf : ℚ → ℚ) (exceed : List Bool) (alpha : ℚ) :
    KupiecResult :=
  let n := exceed.length
  let x := exceed.count true
  let p := 1 - alpha
  if n = 0 then ⟨none, none, x, n⟩
  else
    let phat := max (min ((x : ℚ) / (n : ℚ)) (1 - eps12)) eps12
    let num := (1 - p) ^ (n - x) * p ^ x
    let den := (1 - phat) ^ (n - x) * phat ^ x
    let lr := -2 * log (num / den)
    ⟨some lr, some (1 - chi2cdf lr), x, n⟩

/-- Return record of `christoffersen_test`. -/
structure ChristoffersenResult where
  lr_ind : Option ℚ
  p_value : Option ℚ
deriving DecidableEq, Repr

/-- The probability clamp `min(max(q, eps), 1 - eps)` with `eps = 1e-12`,
applied inside `safe_loglik` to `p01`/`p11` and to `pi` before its logs. -/
def clampProb (q : ℚ) : ℚ := min (max q eps12) (1 - eps12)

/-- `christoffersen_test(exceed)`: sentinel below 2 observations; else count
the transitions of consecutive indicators, estimate `p01`, `p11`, `pi`
(ratios, `0` on a zero denominator), clamp each into `[eps, 1-eps]`, form the
two log-likelihoods and `LR = -2 (ll_const - ll_ind)`.  `log`/`chi2cdf` are
the external numpy/scipy functions, taken as parameters. -/
def christoffersen_test (log chi2cdf : ℚ → ℚ) (exceed : List Bool) :
    ChristoffersenResult :=
  if exceed.length < 2 then ⟨none, none⟩
  else
    let pairs := exceed.zip (exceed.drop 1)
    let n00 : ℕ := (pairs.filter (fun p => !p.1 && !p.2)).length
    let n01 : ℕ := (pairs.filter (fun p => !p.1 && p.2)).length
    let n10 : ℕ := (pairs.filter (fun p => p.1 && !p.2)).length
    let n11 : ℕ := (pairs.filter (fun p => p.1 && p.2)).length
    let p01 : ℚ := if n00 + n01 > 0 then (n01 : ℚ) / ((n00 + n01 : ℕ) : ℚ) else 0
    let p11 : ℚ := if n10 + n11 > 0 then (n11 : ℚ) / ((n10 + n11 : ℕ) : ℚ) else 0
    let piu : ℚ := ((n01 + n11 : ℕ) : ℚ) / ((n00 + n01 + n10 + n11 : ℕ) : ℚ)
    let p01c := clampProb p01
    let p11c := clampProb p11
    let ll_ind := (n00 : ℚ) * log (1 - p01c) + (n01 : ℚ) * log p01c +
                  (n10 : ℚ) * log (1 - p11c) + (n11 : ℚ) * log p11c
    let pic := clampProb piu
    let ll_const := ((n00 + n10 : ℕ) : ℚ) * log (1 - pic) +
                    ((n01 + n11 : ℕ) : ℚ) * log pic
    let lr := -2 * (ll_const - ll_ind)
    ⟨some lr, some (1 - chi2cdf lr)⟩

/-! ### Helper lemmas: exposure algebra -/

theorem foldl_add_eq (f : Position → ℚ) (l : List Position) (a : ℚ) :
    l.foldl (fun s p => s + f p) a = a + (l.map f).sum := by
  induction l generalizing a with
  | nil => simp
  | cons p l ih => simp [ih, add_assoc]

theorem exposure_by_factor_eq_sum (b : TradingBook) (ric : String) :
    b.exposure_by_factor ric =
      ((b.enabled_positions.filter (fun p => p.ric == ric)).map
        Position.exposure_usd).sum := by
  simp [TradingBook.exposure_by_factor, foldl_add_eq]

theorem exposure_by_factor_append (l₁ l₂ : List Position) (ric : String) :
    TradingBook.exposure_by_factor ⟨l₁ ++ l₂⟩ ric =
      TradingBook.exposure_by_factor ⟨l₁⟩ ric +
        TradingBook.exposure_by_factor ⟨l₂⟩ ric := by
  simp [exposure_by_factor_eq_sum, TradingBook.enabled_positions,
    List.filter_append]

/-! ### Helper lemma: `build_hedges` on a single well-formed rule -/

/-- The validity/normalization side conditions on a `HedgeRule` that the
claims assume (the rule is enabled, not beta-proxied, its strings are already
stripped/upper-cased and non-empty, and the asset class is recognized). -/
def WellFormedRule (r : HedgeRule) : Prop :=
  r.enabled = true ∧ r.proxy_beta = false ∧
  pyStrip r.target_factor_ric = r.target_factor_ric ∧
  r.target_factor_ric ≠ "" ∧
  pyStrip r.hedge_factor_ric = r.hedge_factor_ric ∧
  r.hedge_factor_ric ≠ "" ∧
  pyStrip (pyUpper r.hedge_asset_class) = r.hedge_asset_class ∧
  (r.hedge_asset_class = "EQ" ∨ r.hedge_asset_class = "FX" ∨
   r.hedge_asset_class = "INDEX" ∨ r.hedge_asset_class = "RATES")

instance (r : HedgeRule) : Decidable (WellFormedRule r) := by
  unfold WellFormedRule; infer_instance

theorem build_hedges_single (b : TradingBook) (r : HedgeRule)
    (hr : WellFormedRule r) :
    build_hedges b [r] none =
      (if |b.exposure_by_factor r.target_factor_ric| < eps12 then []
       else if r.hedge_asset_class = "RATES" then
         [{ name := r.hedge_name, asset_class := "RATES",
            ric := r.hedge_factor_ric, notional_usd := 0, multiplier := 1,
            dv01_usd_per_bp := -(b.exposure_by_factor r.target_factor_ric),
            enabled := true }]
       else
         [{ name := r.hedge_name, asset_class := r.hedge_asset_class,
            ric := r.hedge_factor_ric,
            notional_usd :=
              _clamp (-(b.exposure_by_factor r.target_factor_ric) /
                  (if r.hedge_multiplier ≠ 0 then r.hedge_multiplier else 1))
                r.max_abs_notional,
            multiplier := (if r.hedge_multiplier ≠ 0 then r.hedge_multiplier else 1),
            dv01_usd_per_bp := 0, enabled := true }]) := by
  obtain ⟨hEn, hProxy, hT, hTne, hH, hHne, hAC, hACmem⟩ := hr
  have hcond : ¬ (r.target_factor_ric = "" ∨ r.hedge_factor_ric = "" ∨
      ¬ (r.hedge_asset_class = "EQ" ∨ r.hedge_asset_class = "FX" ∨
         r.hedge_asset_class = "INDEX" ∨ r.hedge_asset_class = "RATES")) := by
    push_neg
    exact ⟨hTne, hHne, hACmem⟩
  simp only [build_hedges, List.foldl_cons, List.foldl_nil, hEn, hT, hH, hAC,
    Bool.not_true, Bool.false_eq_true, if_false, hcond, List.nil_append]

/-! ### Claims C3, C4, C5, C10 — hedge engine -/

/-- Claim C3: for every book and every enabled, well-formed hedge rule with
`use_beta_proxy = false`, no `max_abs_notional` cap, a nonzero
`hedge_multiplier` and `hedge_factor_id = target_factor_id`, adding the hedge
positions produced by `build_hedges` to the book leaves the net exposure to
the target factor zero within the engine's `1e-12` tolerance. -/
theorem hedge_zeroes_target_exposure (b : TradingBook) (r : HedgeRule)
    (hr : WellFormedRule r)
    (hHT : r.hedge_factor_ric = r.target_factor_ric)
    (hMult : r.hedge_multiplier ≠ 0)
    (hCap : r.max_abs_notional = none) :
    |(b.addPositions (build_hedges b [r] none)).exposure_by_factor
        r.target_factor_ric| < eps12 := by
  rw [build_hedges_single b r hr]
  by_cases h : |b.exposure_by_factor r.target_factor_ric| < eps12
  · rw [if_pos h]
    simpa [TradingBook.addPositions] using h
  · rw [if_neg h]
    have heps : (0 : ℚ) < eps12 := by norm_num [eps12]
    by_cases hR : r.hedge_asset_class = "RATES"
    · rw [if_pos hR]
      have hx := exposure_by_factor_append b.positions
        [{ name := r.hedge_name, asset_class := "RATES",
           ric := r.hedge_factor_ric, notional_usd := 0, multiplier := 1,
           dv01_usd_per_bp := -(b.exposure_by_factor r.target_factor_ric),
           enabled := true }] r.target_factor_ric
      simp only [TradingBook.addPositions, hx]
      rw [show TradingBook.exposure_by_factor ⟨b.positions⟩ r.target_factor_ric
            = b.exposure_by_factor r.target_factor_ric from rfl]
      simp [exposure_by_factor_eq_sum, TradingBook.enabled_positions,
        Position.exposure_usd, hHT, heps]
    · rw [if_neg hR]
      rw [if_pos hMult, hCap]
      have hx := exposure_by_factor_append b.positions
        [{ name := r.hedge_name, asset_class := r.hedge_asset_class,
           ric := r.hedge_factor_ric,
           notional_usd :=
             _clamp (-(b.exposure_by_factor r.target_factor_ric) /
                 r.hedge_multiplier) none,
           multiplier := r.hedge_multiplier,
           dv01_usd_per_bp := 0, enabled := true }] r.target_factor_ric
      simp only [TradingBook.addPositions, hx]
      rw [show TradingBook.exposure_by_factor ⟨b.positions⟩ r.target_factor_ric
            = b.exposure_by_factor r.target_factor_ric from rfl]
      simp only [exposure_by_factor_eq_sum, TradingBook.enabled_positions,
        _clamp]
      simp [Position.exposure_usd, hHT, hR, div_mul_cancel₀ _ hMult, heps]

/-- Witness for C3 at a concrete book and rule (multiplier 2, EQ position of
exposure $1,000,000 on factor ".X"). -/
theorem hedge_zeroes_target_exposure_witness :
    |(TradingBook.addPositions ⟨[⟨"P", "EQ", ".X", 1000000, 1, 0, true⟩]⟩
        (build_hedges ⟨[⟨"P", "EQ", ".X", 1000000, 1, 0, true⟩]⟩
          [⟨".X", ".X", "H", "INDEX", 2, none, true, false⟩] none)).exposure_by_factor
        ".X"| < eps12 :=
  hedge_zeroes_target_exposure ⟨[⟨"P", "EQ", ".X", 1000000, 1, 0, true⟩]⟩
    ⟨".X", ".X", "H", "INDEX", 2, none, true, false⟩
    (by decide) rfl (by norm_num) rfl

/-- Claim C4 (amended): the positions emitted by `build_hedges` carry no
"was clamped" indicator — the output depends on the exposure only through the
already-clamped notional, so two books whose raw hedge notionals clamp to the
same value (one truncated by the cap, the other not) produce identical hedge
positions and the caller cannot observe that clamping occurred. -/
theorem clamped_hedge_not_observable (b1 b2 : TradingBook) (r : HedgeRule)
    (hr : WellFormedRule r)
    (hNR : r.hedge_asset_class ≠ "RATES")
    (he1 : eps12 ≤ |b1.exposure_by_factor r.target_factor_ric|)
    (he2 : eps12 ≤ |b2.exposure_by_factor r.target_factor_ric|)
    (hclamp :
      _clamp (-(b1.exposure_by_factor r.target_factor_ric) /
          (if r.hedge_multiplier ≠ 0 then r.hedge_multiplier else 1))
        r.max_abs_notional =
      _clamp (-(b2.exposure_by_factor r.target_factor_ric) /
          (if r.hedge_multiplier ≠ 0 then r.hedge_multiplier else 1))
        r.max_abs_notional) :
    build_hedges b1 [r] none = build_hedges b2 [r] none := by
  rw [build_hedges_single b1 r hr, build_hedges_single b2 r hr,
    if_neg (not_lt.mpr he1), if_neg (not_lt.mpr he2), if_neg hNR, if_neg hNR,
    hclamp]

/-- Witness for C4's amended theorem: exposures $2,000,000 and $500,000 with a
$500,000 cap clamp to the same hedge notional, so the outputs coincide. -/
theorem clamped_hedge_not_observable_witness :
    build_hedges ⟨[⟨"P", "EQ", ".X", 2000000, 1, 0, true⟩]⟩
        [⟨".X", ".X", "H", "INDEX", 1, some 500000, true, false⟩] none =
      build_hedges ⟨[⟨"P", "EQ", ".X", 500000, 1, 0, true⟩]⟩
        [⟨".X", ".X", "H", "INDEX", 1, some 500000, true, false⟩] none :=
  clamped_hedge_not_observable
    ⟨[⟨"P", "EQ", ".X", 2000000, 1, 0, true⟩]⟩
    ⟨[⟨"P", "EQ", ".X", 500000, 1, 0, true⟩]⟩
    ⟨".X", ".X", "H", "INDEX", 1, some 500000, true, false⟩
    (by decide) (by decide)
    (by simp [TradingBook.exposure_by_factor, TradingBook.enabled_positions,
        Position.exposure_usd]
        norm_num [eps12])
    (by simp [TradingBook.exposure_by_factor, TradingBook.enabled_positions,
        Position.exposure_usd]
        norm_num [eps12])
    (by simp [TradingBook.exposure_by_factor, TradingBook.enabled_positions,
        Position.exposure_usd, _clamp]
        norm_num [min_def, max_def])

/-- Counterexample to C4 as stated: a hedge whose raw notional -$3,000,000 was
truncated by the $1,000,000 cap is byte-for-byte identical to an unclamped
hedge built from a book with exposure $1,000,000 — no field of the emitted
position records that the clamp fired. -/
theorem clamped_hedge_counterexample :
    build_hedges ⟨[⟨"P", "EQ", ".X", 3000000, 1, 0, true⟩]⟩
        [⟨".X", ".X", "H", "INDEX", 1, some 1000000, true, false⟩] none =
      build_hedges ⟨[⟨"P", "EQ", ".X", 1000000, 1, 0, true⟩]⟩
        [⟨".X", ".X", "H", "INDEX", 1, some 1000000, true, false⟩] none ∧
    _clamp (-3000000 : ℚ) (some 1000000) ≠ -3000000 ∧
    _clamp (-1000000 : ℚ) (some 1000000) = -1000000 := by
  refine ⟨?_, by norm_num [_clamp], by norm_num [_clamp]⟩
  simp [build_hedges, pyStrip, pyUpper, isPyWs, TradingBook.exposure_by_factor,
    TradingBook.enabled_positions, Position.exposure_usd, _clamp, eps12]
  norm_num

/-- Claim C5 (amended): for an enabled, well-formed rule whose current target
exposure has magnitude at least the negligibility threshold `1e-12`,
`build_hedges` emits, for a non-RATES hedge, a position with
`notional = -current_exposure / hedge_multiplier` (a supplied zero multiplier
treated as 1), clamped to `±max_abs_notional` when a positive cap was
supplied; and for a RATES hedge a position with `DV01 = -current_exposure`
and no clamping. -/
theorem build_hedges_emitted_sizes (b : TradingBook) (r : HedgeRule) (m : ℚ)
    (hr : WellFormedRule r)
    (he : eps12 ≤ |b.exposure_by_factor r.target_factor_ric|) :
    (r.hedge_asset_class = "RATES" →
      build_hedges b [r] none =
        [{ name := r.hedge_name, asset_class := "RATES",
           ric := r.hedge_factor_ric, notional_usd := 0, multiplier := 1,
           dv01_usd_per_bp := -(b.exposure_by_factor r.target_factor_ric),
           enabled := true }]) ∧
    (r.hedge_asset_class ≠ "RATES" → r.max_abs_notional = none →
      build_hedges b [r] none =
        [{ name := r.hedge_name, asset_class := r.hedge_asset_class,
           ric := r.hedge_factor_ric,
           notional_usd := -(b.exposure_by_factor r.target_factor_ric) /
             (if r.hedge_multiplier = 0 then 1 else r.hedge_multiplier),
           multiplier := (if r.hedge_multiplier = 0 then 1 else r.hedge_multiplier),
           dv01_usd_per_bp := 0, enabled := true }]) ∧
    (r.hedge_asset_class ≠ "RATES" → r.max_abs_notional = some m → 0 < m →
      build_hedges b [r] none =
        [{ name := r.hedge_name, asset_class := r.hedge_asset_class,
           ric := r.hedge_factor_ric,
           notional_usd :=
             min (max (-(b.exposure_by_factor r.target_factor_ric) /
               (if r.hedge_multiplier = 0 then 1 else r.hedge_multiplier)) (-m)) m,
           multiplier := (if r.hedge_multiplier = 0 then 1 else r.hedge_multiplier),
           dv01_usd_per_bp := 0, enabled := true }]) := by
  have hmm : (if r.hedge_multiplier ≠ 0 then r.hedge_multiplier else 1) =
      (if r.hedge_multiplier = 0 then 1 else r.hedge_multiplier) := by
    by_cases h : r.hedge_multiplier = 0 <;> simp [h]
  refine ⟨?_, ?_, ?_⟩
  · intro hR
    rw [build_hedges_single b r hr, if_neg (not_lt.mpr he), if_pos hR]
  · intro hNR hcap
    rw [build_hedges_single b r hr, if_neg (not_lt.mpr he), if_neg hNR, hcap,
      hmm]
    rfl
  · intro hNR hcap hm
    rw [build_hedges_single b r hr, if_neg (not_lt.mpr he), if_neg hNR, hcap,
      hmm]
    simp only [_clamp, if_neg (not_le.mpr hm)]

/-- Witness for C5's amended theorem: exposure $100, multiplier 4, cap $5 ⇒
emitted notional is `min (max (-25) (-5)) 5 = -5`. -/
theorem build_hedges_emitted_sizes_witness :
    build_hedges ⟨[⟨"P", "EQ", ".X", 100, 1, 0, true⟩]⟩
        [⟨".X", ".Y", "H", "INDEX", 4, some 5, true, false⟩] none =
      [{ name := "H", asset_class := "INDEX", ric := ".Y",
         notional_usd :=
           min (max (-(TradingBook.exposure_by_factor
               ⟨[⟨"P", "EQ", ".X", 100, 1, 0, true⟩]⟩ ".X") /
             (if (4 : ℚ) = 0 then 1 else 4)) (-5)) 5,
         multiplier := (if (4 : ℚ) = 0 then 1 else 4),
         dv01_usd_per_bp := 0, enabled := true }] :=
  (build_hedges_emitted_sizes ⟨[⟨"P", "EQ", ".X", 100, 1, 0, true⟩]⟩
      ⟨".X", ".Y", "H", "INDEX", 4, some 5, true, false⟩ 5
      (by decide)
      (by simp [TradingBook.exposure_by_factor, TradingBook.enabled_positions,
          Position.exposure_usd]
          norm_num [eps12])).2.2
    (by decide) rfl (by norm_num)

/-- Counterexample to C5 as stated: a nonzero current exposure of `1e-13`
(below the engine's `1e-12` negligibility threshold) produces NO hedge
position at all, although the claim promises an emitted position for every
nonzero exposure; and a supplied NEGATIVE cap of `-1` leaves the emitted
notional `-100` entirely unclamped, although the claim promises clamping to
`±max_abs_notional` whenever a cap was supplied. -/
theorem build_hedges_tiny_exposure_counterexample :
    (build_hedges ⟨[⟨"P", "EQ", ".X", 1 / 10 ^ 13, 1, 0, true⟩]⟩
        [⟨".X", ".X", "H", "INDEX", 1, none, true, false⟩] none = [] ∧
      TradingBook.exposure_by_factor
        ⟨[⟨"P", "EQ", ".X", 1 / 10 ^ 13, 1, 0, true⟩]⟩ ".X" ≠ 0) ∧
    (build_hedges ⟨[⟨"P", "EQ", ".X", 100, 1, 0, true⟩]⟩
        [⟨".X", ".X", "H", "INDEX", 1, some (-1), true, false⟩] none =
      [⟨"H", "INDEX", ".X", -100, 1, 0, true⟩] ∧
      ¬ |(-100 : ℚ)| ≤ |(-1 : ℚ)|) := by
  have hlt : |((10 : ℚ) ^ 13)⁻¹| < eps12 := by
    rw [abs_of_pos (by positivity)]
    norm_num [eps12]
  refine ⟨⟨?_, ?_⟩, ?_, by norm_num⟩
  · simp [build_hedges, pyStrip, pyUpper, isPyWs, TradingBook.exposure_by_factor,
      TradingBook.enabled_positions, Position.exposure_usd, hlt]
  · simp [TradingBook.exposure_by_factor, TradingBook.enabled_positions,
      Position.exposure_usd]
  · simp [build_hedges, pyStrip, pyUpper, isPyWs, TradingBook.exposure_by_factor,
      TradingBook.enabled_positions, Position.exposure_usd, _clamp, eps12]
    norm_num

/-- Claim C10: a supplied `max_abs_notional` that is zero or negative applies
no clamp at all — the emitted non-RATES hedge notional is the full
`-current_exposure / hedge_multiplier`, passed through unchanged. -/
theorem nonpositive_cap_no_clamp (b : TradingBook) (r : HedgeRule) (m : ℚ)
    (hr : WellFormedRule r)
    (hNR : r.hedge_asset_class ≠ "RATES")
    (hcap : r.max_abs_notional = some m) (hm : m ≤ 0)
    (he : eps12 ≤ |b.exposure_by_factor r.target_factor_ric|) :
    build_hedges b [r] none =
      [{ name := r.hedge_name, asset_class := r.hedge_asset_class,
         ric := r.hedge_factor_ric,
         notional_usd := -(b.exposure_by_factor r.target_factor_ric) /
           (if r.hedge_multiplier = 0 then 1 else r.hedge_multiplier),
         multiplier := (if r.hedge_multiplier = 0 then 1 else r.hedge_multiplier),
         dv01_usd_per_bp := 0, enabled := true }] := by
  have hmm : (if r.hedge_multiplier ≠ 0 then r.hedge_multiplier else 1) =
      (if r.hedge_multiplier = 0 then 1 else r.hedge_multiplier) := by
    by_cases h : r.hedge_multiplier = 0 <;> simp [h]
  rw [build_hedges_single b r hr, if_neg (not_lt.mpr he), if_neg hNR, hcap,
    hmm]
  simp only [_clamp, if_pos hm]

/-! ### Claim C8 — PnL matrix and missing factors -/

/-- Claim C8 (amended): `pnl_matrix` silently excludes every position whose
`factor_id` is not a column of the factor series — the output equals the
output for the book without that position (no exception, and no zeroed
column) — but the excluded names are NOT reported to the caller: the returned
matrix is the entire output and carries no record of the skipped positions. -/
theorem pnl_matrix_skips_absent (l₁ l₂ : List Position) (p : Position)
    (f : FactorDF) (h : hasCol f p.ric = false) :
    TradingBook.pnl_matrix ⟨l₁ ++ p :: l₂⟩ f =
      TradingBook.pnl_matrix ⟨l₁ ++ l₂⟩ f := by
  simp only [TradingBook.pnl_matrix, TradingBook.enabled_positions,
    List.filter_append, List.filter_cons]
  by_cases hp : p.enabled = true
  · simp [hp, List.foldl_append, h]
  · simp [hp]

/-- Witness for C8's amended theorem: dropping the position on the absent
factor ".MISS" leaves the PnL matrix unchanged. -/
theorem pnl_matrix_skips_absent_witness :
    TradingBook.pnl_matrix ⟨[⟨"A", "EQ", ".A", 10, 1, 0, true⟩,
        ⟨"B", "EQ", ".MISS", 5, 1, 0, true⟩]⟩ [(".A", [some 1, some 2])] =
      TradingBook.pnl_matrix ⟨[⟨"A", "EQ", ".A", 10, 1, 0, true⟩]⟩
        [(".A", [some 1, some 2])] :=
  pnl_matrix_skips_absent [⟨"A", "EQ", ".A", 10, 1, 0, true⟩] []
    ⟨"B", "EQ", ".MISS", 5, 1, 0, true⟩ [(".A", [some 1, some 2])] (by decide)

/-- Counterexample to C8 as stated: two books that differ only in the name
(and absent factor) of the excluded position produce byte-for-byte identical
outputs, and that output is just the surviving PnL column — so the dropped
names ("B" here) are not reported to the caller in any form. -/
theorem pnl_matrix_dropped_names_not_reported :
    TradingBook.pnl_matrix ⟨[⟨"A", "EQ", ".A", 10, 1, 0, true⟩,
        ⟨"B", "EQ", ".MISS", 5, 1, 0, true⟩]⟩ [(".A", [some 1, some 2])] =
      TradingBook.pnl_matrix ⟨[⟨"A", "EQ", ".A", 10, 1, 0, true⟩,
        ⟨"C", "EQ", ".OTHER", 7, 1, 0, true⟩]⟩ [(".A", [some 1, some 2])] ∧
    TradingBook.pnl_matrix ⟨[⟨"A", "EQ", ".A", 10, 1, 0, true⟩,
        ⟨"B", "EQ", ".MISS", 5, 1, 0, true⟩]⟩ [(".A", [some 1, some 2])] =
      [("A", [some 10, some 20])] := by
  constructor
  · simp [TradingBook.pnl_matrix, TradingBook.enabled_positions, hasCol,
      colLookup, dictSet, Position.exposure_usd, List.find?]
  · simp [TradingBook.pnl_matrix, TradingBook.enabled_positions, hasCol,
      colLookup, dictSet, Position.exposure_usd, List.find?]
    norm_num

/-- Witness for C10: cap `-1`, exposure $100, multiplier 4 ⇒ the emitted
notional is the unclamped `-25`. -/
theorem nonpositive_cap_no_clamp_witness :
    build_hedges ⟨[⟨"P", "EQ", ".X", 100, 1, 0, true⟩]⟩
        [⟨".X", ".Y", "H", "INDEX", 4, some (-1), true, false⟩] none =
      [{ name := "H", asset_class := "INDEX", ric := ".Y",
         notional_usd := -(TradingBook.exposure_by_factor
             ⟨[⟨"P", "EQ", ".X", 100, 1, 0, true⟩]⟩ ".X") /
           (if (4 : ℚ) = 0 then 1 else 4),
         multiplier := (if (4 : ℚ) = 0 then 1 else 4),
         dv01_usd_per_bp := 0, enabled := true }] :=
  nonpositive_cap_no_clamp ⟨[⟨"P", "EQ", ".X", 100, 1, 0, true⟩]⟩
    ⟨".X", ".Y", "H", "INDEX", 4, some (-1), true, false⟩ (-1)
    (by decide) (by decide) rfl (by norm_num)
    (by simp [TradingBook.exposure_by_factor, TradingBook.enabled_positions,
        Position.exposure_usd]
        norm_num [eps12])

/-! ### Claims C1, C9 — historical VaR / ES -/

/-- Claim C1 (amended): `TradingBook.historical_var` and `historical_es`
return the NaN sentinel, never raising, on every sample with fewer than 30
non-missing observations; but the standalone `historical_var` in
`src/risk/var.py` has no minimum-sample guard: it raises `ValueError` on an
empty sample and returns a plain quantile value (not a sentinel) on every
nonempty sample, however small. -/
theorem small_sample_sentinels (pnl : List (Option ℚ)) (alpha : ℚ)
    (l : List ℚ) (c : ℚ) :
    ((dropna pnl).length < 30 →
      TradingBook.historical_var pnl alpha = none ∧
      historical_es pnl alpha = none) ∧
    (l = [] → RiskVar.historical_var l c = Except.error "pnl_series is empty") ∧
    (l ≠ [] → ∃ v, RiskVar.historical_var l c = Except.ok v) := by
  refine ⟨fun h => ⟨?_, ?_⟩, fun h => ?_, fun h => ?_⟩
  · simp [TradingBook.historical_var, h]
  · simp [historical_es, h]
  · subst h; rfl
  · cases l with
    | nil => exact absurd rfl h
    | cons a as => exact ⟨_, rfl⟩

/-- Witness for C1's amended theorem: the sentinel on a 3-observation
sample, the raise on an empty sample, and a plain `ok` value on a
1-observation sample. -/
theorem small_sample_sentinels_witness :
    (TradingBook.historical_var [some 1, some 2, some 3] (99 / 100) = none ∧
      historical_es [some 1, some 2, some 3] (99 / 100) = none) ∧
    RiskVar.historical_var [] (1 / 2) = Except.error "pnl_series is empty" ∧
    (∃ v, RiskVar.historical_var [5] (1 / 2) = Except.ok v) :=
  ⟨(small_sample_sentinels [some 1, some 2, some 3] (99 / 100) [] (1 / 2)).1
      (by norm_num [dropna]),
   (small_sample_sentinels [some 1, some 2, some 3] (99 / 100) [] (1 / 2)).2.1
      rfl,
   (small_sample_sentinels [some 1, some 2, some 3] (99 / 100) [5] (1 / 2)).2.2
      (by simp)⟩

/-- Counterexample to C1 as stated: on an empty sample (0 < 30 observations)
`src/risk/var.py`'s `historical_var` raises rather than returning a sentinel,
and on a 3-observation sample it returns the plain quantile `-2`, a number
indistinguishable from a real VaR. -/
theorem risk_var_no_sentinel_counterexample :
    RiskVar.historical_var [] (99 / 100) = Except.error "pnl_series is empty" ∧
    RiskVar.historical_var [1, 2, 3] (99 / 100) = Except.ok (-2) := by
  refine ⟨rfl, ?_⟩
  norm_num [RiskVar.historical_var, sortAsc, insertSorted,
    show ⌊(99 : ℚ) / 50⌋₊ = 1 by rw [Nat.floor_eq_iff (by norm_num)]; norm_num]

/-- Claim C9: whenever both are defined (non-sentinel),
`historical_es(pnl, alpha) ≥ historical_var(pnl, alpha)`: the ES tail average
is at least as severe as the VaR quantile. -/
theorem es_ge_var (pnl : List (Option ℚ)) (alpha v e : ℚ)
    (ha1 : 0 < alpha) (ha2 : alpha < 1)
    (hv : TradingBook.historical_var pnl alpha = some v)
    (he : historical_es pnl alpha = some e) :
    v ≤ e := by
  simp only [TradingBook.historical_var] at hv
  simp only [historical_es] at he
  by_cases h30 : (dropna pnl).length < 30
  · simp [h30] at hv
  · rw [if_neg h30] at hv he
    set q := npQuantile (dropna pnl) (1 - alpha) with hqdef
    set tl := (dropna pnl).filter (fun a => decide (a ≤ q)) with htldef
    by_cases h0 : tl.length = 0
    · rw [if_pos h0] at he
      cases he
    · rw [if_neg h0] at he
      injection hv with hv
      injection he with he
      subst hv
      subst he
      rw [neg_le_neg_iff]
      have hlen : (0 : ℚ) < (tl.length : ℚ) := by
        exact_mod_cast Nat.pos_of_ne_zero h0
      rw [div_le_iff₀ hlen]
      have hb : ∀ a ∈ tl, a ≤ q := by
        intro a ha
        exact of_decide_eq_true (List.mem_filter.mp ha).2
      calc tl.sum ≤ tl.length • q := List.sum_le_card_nsmul tl q hb
        _ = (tl.length : ℚ) * q := by rw [nsmul_eq_mul]
        _ = q * (tl.length : ℚ) := mul_comm _ _

/-- Witness for C9 on the 30-observation sample 0..29 at `alpha = 15/29`
(VaR = -14, ES = -7, and indeed -14 ≤ -7). -/
theorem es_ge_var_witness :
    TradingBook.historical_var pnl30 (15 / 29) = some (-14) ∧
    historical_es pnl30 (15 / 29) = some (-7) ∧ (-14 : ℚ) ≤ -7 := by
  have hv : TradingBook.historical_var pnl30 (15 / 29) = some (-14) := by
    norm_num [pnl30, TradingBook.historical_var, dropna, npQuantile, sortAsc,
      insertSorted]
  have he : historical_es pnl30 (15 / 29) = some (-7) := by
    norm_num [pnl30, historical_es, dropna, npQuantile, sortAsc, insertSorted]
  exact ⟨hv, he, es_ge_var pnl30 (15 / 29) (-14) (-7) (by norm_num)
    (by norm_num) hv he⟩

/-! ### Claims C6, C7 — backtest statistics -/

theorem clampProb_mem (q : ℚ) : eps12 ≤ clampProb q ∧ clampProb q ≤ 1 - eps12 := by
  unfold clampProb
  constructor
  · exact le_min (le_trans (by norm_num [eps12]) (le_max_right q eps12))
      (by norm_num [eps12])
  · exact min_le_right _ _

theorem one_sub_clampProb_mem (q : ℚ) :
    eps12 ≤ 1 - clampProb q ∧ 1 - clampProb q ≤ 1 - eps12 := by
  obtain ⟨h1, h2⟩ := clampProb_mem q
  constructor <;> linarith

/-- Claim C6: for a breach sequence of length `n` with `x` breaches and
`p = 1 - alpha`, `kupiec_test` produces
`LR = -2·ln(((1-p)^(n-x)·p^x) / ((1-p_hat)^(n-x)·p_hat^x))` for a `p_hat`
clamped into `[1e-12, 1-1e-12]` that equals `x/n` whenever `x/n` already lies
in that interval, `p_value = 1 - chi2cdf(LR)`, together with the breach count
and `n`; and the NaN sentinel (with the counts) when `n = 0`. -/
theorem kupiec_formula (log chi2cdf : ℚ → ℚ) (exceed : List Bool) (alpha : ℚ) :
    (exceed.length = 0 →
      kupiec_test log chi2cdf exceed alpha =
        ⟨none, none, exceed.count true, exceed.length⟩) ∧
    (exceed.length ≠ 0 →
      ∃ phat : ℚ, eps12 ≤ phat ∧ phat ≤ 1 - eps12 ∧
        (eps12 ≤ (exceed.count true : ℚ) / (exceed.length : ℚ) →
          (exceed.count true : ℚ) / (exceed.length : ℚ) ≤ 1 - eps12 →
          phat = (exceed.count true : ℚ) / (exceed.length : ℚ)) ∧
        kupiec_test log chi2cdf exceed alpha =
          ⟨some (-2 * log (((1 - (1 - alpha)) ^ (exceed.length - exceed.count true) *
              (1 - alpha) ^ exceed.count true) /
              ((1 - phat) ^ (exceed.length - exceed.count true) *
              phat ^ exceed.count true))),
           some (1 - chi2cdf
             (-2 * log (((1 - (1 - alpha)) ^ (exceed.length - exceed.count true) *
               (1 - alpha) ^ exceed.count true) /
               ((1 - phat) ^ (exceed.length - exceed.count true) *
               phat ^ exceed.count true)))),
           exceed.count true, exceed.length⟩) := by
  constructor
  · intro h
    simp [kupiec_test, h]
  · intro h
    refine ⟨max (min ((exceed.count true : ℚ) / (exceed.length : ℚ))
      (1 - eps12)) eps12, ?_, ?_, ?_, ?_⟩
    · exact le_max_right _ _
    · exact max_le (le_trans (min_le_right _ _) le_rfl) (by norm_num [eps12])
    · intro hlo hhi
      rw [min_eq_left hhi, max_eq_left hlo]
    · simp [kupiec_test, h]

/-- Witness for C6: the sentinel on the empty breach sequence, and the full
statistic on `[true, false, false]` at `alpha = 95/100` with `log = id`,
`chi2cdf = id` (`p_hat = 1/3`, `LR = -9747/16000`). -/
theorem kupiec_formula_witness :
    kupiec_test id id [] (95 / 100) = ⟨none, none, 0, 0⟩ ∧
    kupiec_test id id [true, false, false] (95 / 100) =
      ⟨some (-9747 / 16000), some (25747 / 16000), 1, 3⟩ := by
  constructor
  · exact (kupiec_formula id id [] (95 / 100)).1 rfl
  · obtain ⟨phat, -, -, h3, h4⟩ :=
      (kupiec_formula id id [true, false, false] (95 / 100)).2 (by norm_num)
    simp only [show (([true, false, false] : List Bool).count true) = 1 from
      rfl, show (([true, false, false] : List Bool).length) = 3 from rfl]
      at h3 h4
    have hp : phat = (1 : ℚ) / 3 := by
      have h := h3 (by norm_num [eps12]) (by norm_num [eps12])
      simpa using h
    rw [hp] at h4
    rw [h4]
    norm_num [KupiecResult.mk.injEq]

/-- Claim C7: `christoffersen_test` clamps every estimated probability
(`p01`, `p11` and the unconditional breach probability) into
`[1e-12, 1-1e-12]` before any logarithm: its result is invariant under
changing the logarithm outside that interval (so no log-likelihood is ever
`-∞`); and it returns the NaN sentinel whenever fewer than 2 breach
observations exist. -/
theorem christoffersen_clamped (log1 log2 chi2cdf : ℚ → ℚ)
    (exceed : List Bool) :
    (exceed.length < 2 →
      christoffersen_test log1 chi2cdf exceed = ⟨none, none⟩) ∧
    ((∀ q, eps12 ≤ q → q ≤ 1 - eps12 → log1 q = log2 q) →
      christoffersen_test log1 chi2cdf exceed =
        christoffersen_test log2 chi2cdf exceed) := by
  constructor
  · intro h
    simp [christoffersen_test, h]
  · intro hlog
    by_cases h2 : exceed.length < 2
    · simp [christoffersen_test, h2]
    · have hcl : ∀ q : ℚ, log1 (clampProb q) = log2 (clampProb q) := fun q =>
        hlog _ (clampProb_mem q).1 (clampProb_mem q).2
      have hcl2 : ∀ q : ℚ, log1 (1 - clampProb q) = log2 (1 - clampProb q) :=
        fun q => hlog _ (one_sub_clampProb_mem q).1 (one_sub_clampProb_mem q).2
      simp only [christoffersen_test, if_neg h2, hcl, hcl2]

/-- Witness for C7: the sentinel on a single observation, and invariance of
the test under a logarithm perturbed below `1e-12` (where an unclamped
probability of 0 would send the log-likelihood to `-∞`). -/
theorem christoffersen_clamped_witness :
    christoffersen_test id id [true] = ⟨none, none⟩ ∧
    christoffersen_test id id [true, false, true] =
      christoffersen_test (fun p => if p < eps12 then (37 : ℚ) else p) id
        [true, false, true] :=
  ⟨(christoffersen_clamped id id id [true]).1 (by norm_num),
   (christoffersen_clamped id (fun p => if p < eps12 then (37 : ℚ) else p)
      id [true, false, true]).2
      (fun q h1 _ => (if_neg (not_lt.mpr h1)).symm)⟩

/-! ### Claim C2 — rolling backtest: helper lemmas -/

theorem denaFrom_length (l : List (Option ℚ)) :
    ∀ k, (denaFrom k l).length = somesCount l := by
  induction l with
  | nil => intro k; rfl
  | cons o rest ih =>
    intro k
    cases o with
    | none => simp [denaFrom, somesCount, ih]
    | some a => simp [denaFrom, somesCount, ih]

theorem denaFrom_fst_ge (l : List (Option ℚ)) :
    ∀ k e, e ∈ denaFrom k l → k ≤ e.1 := by
  induction l with
  | nil => intro k e he; cases he
  | cons o rest ih =>
    intro k e he
    cases o with
    | none => exact le_trans (Nat.le_succ k) (ih (k + 1) e he)
    | some a =>
      rcases List.mem_cons.mp he with rfl | he
      · exact le_rfl
      · exact le_trans (Nat.le_succ k) (ih (k + 1) e he)

theorem reindexPos_eq_none (x : List (ℕ × ℚ)) (t : ℕ)
    (h : ∀ e ∈ x, e.1 ≠ t) : reindexPos x t = none := by
  induction x with
  | nil => rfl
  | cons e rest ih =>
    simp only [reindexPos, if_neg (h e (by simp))]
    rw [ih (fun p hp => h p (by simp [hp]))]
    rfl

theorem denaFrom_append (l₁ l₂ : List (Option ℚ)) :
    ∀ k, denaFrom k (l₁ ++ l₂) =
      denaFrom k l₁ ++ denaFrom (k + l₁.length) l₂ := by
  induction l₁ with
  | nil => intro k; simp [denaFrom]
  | cons o rest ih =>
    intro k
    cases o with
    | none =>
      simp only [List.cons_append, denaFrom, List.length_cons]
      rw [show k + (rest.length + 1) = (k + 1) + rest.length from by omega]
      exact ih (k + 1)
    | some a =>
      simp only [List.cons_append, denaFrom, List.length_cons]
      rw [show k + (rest.length + 1) = (k + 1) + rest.length from by omega]
      exact congrArg (List.cons (k, a)) (ih (k + 1))

theorem reindexPos_denaFrom_some (l : List (Option ℚ)) :
    ∀ k t a, l[t]? = some (some a) →
      reindexPos (denaFrom k l) (k + t) = some (somesCount (l.take t)) := by
  induction l with
  | nil => intro k t a h; simp at h
  | cons o rest ih =>
    intro k t a h
    cases t with
    | zero =>
      simp only [List.getElem?_cons_zero, Option.some.injEq] at h
      subst h
      simp [denaFrom, reindexPos, List.take_zero, somesCount]
    | succ t =>
      simp only [List.getElem?_cons_succ] at h
      cases o with
      | none =>
        simp only [denaFrom, List.take_succ_cons, somesCount]
        have := ih (k + 1) t a h
        rw [show k + (t + 1) = (k + 1) + t by omega]
        exact this
      | some b =>
        simp only [denaFrom, reindexPos,
          if_neg (by omega : ¬ (k = k + (t + 1))), List.take_succ_cons,
          somesCount]
        rw [show k + (t + 1) = (k + 1) + t by omega, ih (k + 1) t a h]
        rfl

theorem reindexPos_denaFrom_none (l : List (Option ℚ)) :
    ∀ k t, l[t]? = some none → reindexPos (denaFrom k l) (k + t) = none := by
  induction l with
  | nil => intro k t h; simp at h
  | cons o rest ih =>
    intro k t h
    cases t with
    | zero =>
      simp only [List.getElem?_cons_zero, Option.some.injEq] at h
      subst h
      simp only [denaFrom]
      exact reindexPos_eq_none _ _ (fun e he => by
        have := denaFrom_fst_ge rest (k + 1) e he
        omega)
    | succ t =>
      simp only [List.getElem?_cons_succ] at h
      cases o with
      | none =>
        simp only [denaFrom]
        rw [show k + (t + 1) = (k + 1) + t by omega]
        exact ih (k + 1) t h
      | some b =>
        simp only [denaFrom, reindexPos,
          if_neg (by omega : ¬ (k = k + (t + 1)))]
        rw [show k + (t + 1) = (k + 1) + t by omega, ih (k + 1) t h]
        rfl

theorem somesCount_set (l : List (Option ℚ)) :
    ∀ t v w, l[t]? = some (some w) →
      somesCount (l.set t (some v)) = somesCount l := by
  induction l with
  | nil => intro t v w h; simp at h
  | cons o rest ih =>
    intro t v w h
    cases t with
    | zero =>
      simp only [List.getElem?_cons_zero, Option.some.injEq] at h
      subst h
      simp [somesCount]
    | succ t =>
      simp only [List.getElem?_cons_succ] at h
      cases o with
      | none => simpa [somesCount] using ih t v w h
      | some b => simpa [somesCount] using ih t v w h

theorem take_set (l : List (Option ℚ)) :
    ∀ t u, (l.set t u).take t = l.take t := by
  induction l with
  | nil => intro t u; simp
  | cons o rest ih =>
    intro t u
    cases t with
    | zero => simp
    | succ t => simp [List.set_cons_succ, List.take_succ_cons, ih t u]

theorem rolling_getD (pnl : List (Option ℚ)) (window : ℕ) (alpha : ℚ) (t : ℕ)
    (ht : t < pnl.length) :
    (rolling_var_es pnl window alpha).getD t (none, none) =
      (if (denaFrom 0 pnl).length < window + 5 then (none, none)
       else
         match reindexPos (denaFrom 0 pnl) t with
         | none => (none, none)
         | some i =>
           if i < window then (none, none)
           else
             let sample := (((denaFrom 0 pnl).map Prod.snd).drop
               (i - window)).take window
             let q := npQuantile sample (1 - alpha)
             let tail := sample.filter (fun a => decide (a ≤ q))
             (some (-q),
              if tail.length = 0 then none
              else some (-(tail.sum / (tail.length : ℚ))))) := by
  simp only [rolling_var_es]
  by_cases hg : (denaFrom 0 pnl).length < window + 5
  · rw [if_pos hg, if_pos hg, List.getD_eq_getElem?_getD,
      List.getElem?_replicate, if_pos ht]
    rfl
  · rw [if_neg hg, if_neg hg, List.getD_eq_getElem?_getD,
      List.getElem?_map, List.getElem?_range ht]
    rfl

theorem rolling_out_guard (pnl : List (Option ℚ)) (window : ℕ) (alpha : ℚ)
    (t : ℕ) (ht : t < pnl.length) (hg : somesCount pnl < window + 5) :
    (rolling_var_es pnl window alpha).getD t (none, none) = (none, none) := by
  rw [rolling_getD pnl window alpha t ht,
    if_pos (by rw [denaFrom_length]; exact hg)]

theorem rolling_out_missing (pnl : List (Option ℚ)) (window : ℕ) (alpha : ℚ)
    (t : ℕ) (ht : t < pnl.length) (hm : pnl[t]? = some none) :
    (rolling_var_es pnl window alpha).getD t (none, none) = (none, none) := by
  rw [rolling_getD pnl window alpha t ht]
  by_cases hg : (denaFrom 0 pnl).length < window + 5
  · rw [if_pos hg]
  · rw [if_neg hg]
    have hr : reindexPos (denaFrom 0 pnl) t = none := by
      have := reindexPos_denaFrom_none pnl 0 t hm
      simpa using this
    rw [hr]

theorem rolling_out_below (pnl : List (Option ℚ)) (window : ℕ) (alpha : ℚ)
    (t : ℕ) (w : ℚ) (ht : t < pnl.length) (hsome : pnl[t]? = some (some w))
    (hb : somesCount (pnl.take t) < window) :
    (rolling_var_es pnl window alpha).getD t (none, none) = (none, none) := by
  rw [rolling_getD pnl window alpha t ht]
  by_cases hg : (denaFrom 0 pnl).length < window + 5
  · rw [if_pos hg]
  · rw [if_neg hg]
    have hr : reindexPos (denaFrom 0 pnl) t =
        some (somesCount (pnl.take t)) := by
      have := reindexPos_denaFrom_some pnl 0 t w hsome
      simpa using this
    rw [hr]
    simp [hb]

theorem rolling_out_formula (pnl : List (Option ℚ)) (window : ℕ) (alpha : ℚ)
    (t : ℕ) (w : ℚ) (ht : t < pnl.length)
    (hg : window + 5 ≤ somesCount pnl) (hsome : pnl[t]? = some (some w))
    (hwin : window ≤ somesCount (pnl.take t)) :
    (rolling_var_es pnl window alpha).getD t (none, none) =
      (let sample := (priorVals pnl t).drop (somesCount (pnl.take t) - window)
       let q := npQuantile sample (1 - alpha)
       let tail := sample.filter (fun a => decide (a ≤ q))
       (some (-q),
        if tail.length = 0 then none
        else some (-(tail.sum / (tail.length : ℚ))))) := by
  rw [rolling_getD pnl window alpha t ht,
    if_neg (by rw [denaFrom_length]; omega)]
  have hr : reindexPos (denaFrom 0 pnl) t =
      some (somesCount (pnl.take t)) := by
    have := reindexPos_denaFrom_some pnl 0 t w hsome
    simpa using this
  rw [hr]
  have hA : (priorVals pnl t).length = somesCount (pnl.take t) := by
    simp [priorVals, denaFrom_length]
  have hsplit : (denaFrom 0 pnl).map Prod.snd =
      priorVals pnl t ++
        (denaFrom (0 + (pnl.take t).length) (pnl.drop t)).map Prod.snd := by
    conv_lhs => rw [← List.take_append_drop t pnl]
    rw [denaFrom_append, List.map_append]
    rfl
  have hsample :
      (((denaFrom 0 pnl).map Prod.snd).drop
          (somesCount (pnl.take t) - window)).take window =
        (priorVals pnl t).drop (somesCount (pnl.take t) - window) := by
    rw [hsplit, List.drop_append_of_le_length (by omega)]
    have hlen : ((priorVals pnl t).drop
        (somesCount (pnl.take t) - window)).length = window := by
      rw [List.length_drop, hA]
      omega
    rw [List.take_append_of_le_length (le_of_eq hlen.symm),
      List.take_of_length_le (le_of_eq hlen)]
  simp only [if_neg (not_lt.mpr hwin), hsample]

theorem rolling_out_set (pnl : List (Option ℚ)) (window : ℕ) (alpha : ℚ)
    (t : ℕ) (v w : ℚ) (ht : t < pnl.length)
    (hsome : pnl[t]? = some (some w)) :
    (rolling_var_es (pnl.set t (some v)) window alpha).getD t (none, none) =
      (rolling_var_es pnl window alpha).getD t (none, none) := by
  have ht' : t < (pnl.set t (some v)).length := by
    rw [List.length_set]; exact ht
  have hsome' : (pnl.set t (some v))[t]? = some (some v) := by
    rw [List.getElem?_set]
    simp [ht]
  have hcount' : somesCount (pnl.set t (some v)) = somesCount pnl :=
    somesCount_set pnl t v w hsome
  have htake' : (pnl.set t (some v)).take t = pnl.take t :=
    take_set pnl t (some v)
  by_cases hg : somesCount pnl < window + 5
  · rw [rolling_out_guard (pnl.set t (some v)) window alpha t ht'
        (by rw [hcount']; exact hg),
      rolling_out_guard pnl window alpha t ht hg]
  · by_cases hwin : somesCount (pnl.take t) < window
    · rw [rolling_out_below (pnl.set t (some v)) window alpha t v ht' hsome'
          (by rw [htake']; exact hwin),
        rolling_out_below pnl window alpha t w ht hsome hwin]
    · rw [rolling_out_formula (pnl.set t (some v)) window alpha t v ht'
          (by omega) hsome' (by rw [htake']; omega),
        rolling_out_formula pnl window alpha t w ht (by omega) hsome
          (by omega)]
      rw [show priorVals (pnl.set t (some v)) t = priorVals pnl t from by
          simp [priorVals, htake'],
        htake']

/-- Claim C2 (amended): `rolling_var_es` leaves EVERY index undefined when
the de-na'd PnL series has fewer than `window + 5` observations (the code's
small-sample guard — not part of the original claim); otherwise a non-missing
index `t` with at least `window` non-missing observations strictly before it
gets `VaR_t = -quantile(S, 1-alpha)` and the ES tail average computed from
`S` = the trailing `window` NON-MISSING observations strictly before `t` —
in particular `(VaR_t, ES_t)` never depends on the observation at `t`:
overwriting `pnl_t` leaves them unchanged — and every index that is missing
or has fewer than `window` prior non-missing observations is undefined
(missing), not zero. -/
theorem rolling_var_es_out_of_sample (pnl : List (Option ℚ)) (window : ℕ)
    (alpha : ℚ) (t : ℕ) (v w : ℚ) (ht : t < pnl.length) :
    (somesCount pnl < window + 5 →
      (rolling_var_es pnl window alpha).getD t (none, none) = (none, none)) ∧
    (pnl[t]? = some none →
      (rolling_var_es pnl window alpha).getD t (none, none) = (none, none)) ∧
    (pnl[t]? = some (some w) → somesCount (pnl.take t) < window →
      (rolling_var_es pnl window alpha).getD t (none, none) = (none, none)) ∧
    (window + 5 ≤ somesCount pnl → pnl[t]? = some (some w) →
      window ≤ somesCount (pnl.take t) →
      (rolling_var_es pnl window alpha).getD t (none, none) =
        (let sample := (priorVals pnl t).drop
           (somesCount (pnl.take t) - window)
         let q := npQuantile sample (1 - alpha)
         let tail := sample.filter (fun a => decide (a ≤ q))
         (some (-q),
          if tail.length = 0 then none
          else some (-(tail.sum / (tail.length : ℚ)))))) ∧
    (pnl[t]? = some (some w) →
      (rolling_var_es (pnl.set t (some v)) window alpha).getD t (none, none) =
        (rolling_var_es pnl window alpha).getD t (none, none)) :=
  ⟨fun hg => rolling_out_guard pnl window alpha t ht hg,
   fun hm => rolling_out_missing pnl window alpha t ht hm,
   fun hs hb => rolling_out_below pnl window alpha t w ht hs hb,
   fun hg hs hwin => rolling_out_formula pnl window alpha t w ht hg hs hwin,
   fun hs => rolling_out_set pnl window alpha t v w ht hs⟩

/-- Witness for C2's amended theorem on the series
`[1, NaN, 2, 3, 0, 5, 4, 6, 7]` with `window = 2`: the small-sample guard on
a 6-observation series, missingness at the NaN index, missingness below the
window, the out-of-sample formula at index 6, and invariance of index 6 under
replacing its observation by the outlier 100. -/
theorem rolling_var_es_out_of_sample_witness :
    (rolling_var_es [some 1, some 2, some 3, some 4, some 5, some 6]
        2 (1 / 2)).getD 2 (none, none) = (none, none) ∧
    (rolling_var_es [some 1, none, some 2, some 3, some 0, some 5, some 4,
        some 6, some 7] 2 (1 / 2)).getD 1 (none, none) = (none, none) ∧
    (rolling_var_es [some 1, none, some 2, some 3, some 0, some 5, some 4,
        some 6, some 7] 2 (1 / 2)).getD 0 (none, none) = (none, none) ∧
    (rolling_var_es [some 1, none, some 2, some 3, some 0, some 5, some 4,
        some 6, some 7] 2 (1 / 2)).getD 6 (none, none) =
      (let sample := (priorVals [some 1, none, some 2, some 3, some 0, some 5,
          some 4, some 6, some 7] 6).drop
          (somesCount ([some 1, none, some 2, some 3, some 0, some 5, some 4,
            some 6, some 7].take 6) - 2)
       let q := npQuantile sample (1 - 1 / 2)
       let tail := sample.filter (fun a => decide (a ≤ q))
       (some (-q),
        if tail.length = 0 then none
        else some (-(tail.sum / (tail.length : ℚ))))) ∧
    (rolling_var_es ([some 1, none, some 2, some 3, some 0, some 5, some 4,
        some 6, some 7].set 6 (some 100)) 2 (1 / 2)).getD 6 (none, none) =
      (rolling_var_es [some 1, none, some 2, some 3, some 0, some 5, some 4,
        some 6, some 7] 2 (1 / 2)).getD 6 (none, none) :=
  ⟨(rolling_var_es_out_of_sample [some 1, some 2, some 3, some 4, some 5,
      some 6] 2 (1 / 2) 2 0 0 (by decide)).1 (by decide),
   (rolling_var_es_out_of_sample [some 1, none, some 2, some 3, some 0,
      some 5, some 4, some 6, some 7] 2 (1 / 2) 1 0 0 (by decide)).2.1 rfl,
   (rolling_var_es_out_of_sample [some 1, none, some 2, some 3, some 0,
      some 5, some 4, some 6, some 7] 2 (1 / 2) 0 0 1 (by decide)).2.2.1 rfl
      (by decide),
   (rolling_var_es_out_of_sample [some 1, none, some 2, some 3, some 0,
      some 5, some 4, some 6, some 7] 2 (1 / 2) 6 0 4 (by decide)).2.2.2.1
      (by decide) rfl (by decide),
   (rolling_var_es_out_of_sample [some 1, none, some 2, some 3, some 0,
      some 5, some 4, some 6, some 7] 2 (1 / 2) 6 100 4 (by decide)).2.2.2.2
      rfl⟩

/-- Counterexample to C2 as stated, in three parts.  (1) On the fully
observed 7-point series with `window = 3` and `alpha = 1/2 ∈ (0,1)`, index 6
has 6 ≥ 3 prior non-missing observations, yet `(VaR_6, ES_6)` is undefined —
the `len(x) < window + 5` small-sample guard blanks the whole frame.  (2) A
missing index with 7 ≥ 2 prior non-missing observations is also undefined.
(3) Two series that agree from position 4 on — hence on the whole positional
slice `pnl[4:6)` and at index 6 — get different `(VaR_6, ES_6)` under
`window = 2`, so the value at index 6 is NOT computed from only
`pnl_series[t-window : t)`: the trailing window reaches past the NaN at
position 5 to the observation at position 3. -/
theorem rolling_var_es_window5_counterexample :
    ((rolling_var_es [some 1, some 2, some 3, some 4, some 5, some 6, some 7]
        3 (1 / 2)).getD 6 (some 0, some 0) = (none, none) ∧
      3 ≤ somesCount ([some 1, some 2, some 3, some 4, some 5, some 6,
        some 7].take 6) ∧
      (0 : ℚ) < 1 / 2 ∧ (1 : ℚ) / 2 < 1) ∧
    ((rolling_var_es [some 1, some 2, some 3, some 4, some 5, some 6, some 7,
        none, some 8] 2 (1 / 2)).getD 7 (some 0, some 0) = (none, none) ∧
      2 ≤ somesCount ([some 1, some 2, some 3, some 4, some 5, some 6, some 7,
        none, some 8].take 7)) ∧
    ((rolling_var_es [some 1, some 2, some 3, some 4, some 5, none, some 6,
        some 7] 2 (1 / 2)).getD 6 (none, none) = (some (-9 / 2), some (-4)) ∧
      (rolling_var_es [some 1, some 2, some 3, some 0, some 5, none, some 6,
        some 7] 2 (1 / 2)).getD 6 (none, none) = (some (-5 / 2), some 0) ∧
      ([some 1, some 2, some 3, some 4, some 5, none, some 6,
        some 7] : List (Option ℚ)).drop 4 =
        [some 1, some 2, some 3, some 0, some 5, none, some 6,
          some 7].drop 4) := by
  refine ⟨⟨by decide, by decide, by norm_num, by norm_num⟩,
    ⟨by decide, by decide⟩, ?_, ?_, rfl⟩
  · rw [rolling_getD _ 2 (1 / 2) 6 (by norm_num)]
    norm_num [denaFrom, reindexPos, npQuantile, sortAsc, insertSorted,
      somesCount,
      show ⌊(1 : ℚ) / 2⌋₊ = 0 by
        rw [Nat.floor_eq_iff (by norm_num)]; norm_num,
      show ⌊((2 : ℚ))⁻¹⌋₊ = 0 by
        rw [Nat.floor_eq_iff (by norm_num)]; norm_num]
  · rw [rolling_getD _ 2 (1 / 2) 6 (by norm_num)]
    norm_num [denaFrom, reindexPos, npQuantile, sortAsc, insertSorted,
      somesCount,
      show ⌊(1 : ℚ) / 2⌋₊ = 0 by
        rw [Nat.floor_eq_iff (by norm_num)]; norm_num,
      show ⌊((2 : ℚ))⁻¹⌋₊ = 0 by
        rw [Nat.floor_eq_iff (by norm_num)]; norm_num]

end RiskBook
